import Mathlib

set_option maxRecDepth 100000
set_option maxHeartbeats 2000000

/-!
Verification of the OpenZeppelin Solidity language-server core
(`server/src/namespace.ts`, `server/src/diagnostics.ts`,
`server/src/quickfixes.ts`, `server/src/server.ts`).

The development shallowly embeds the TypeScript source: pure functions
become Lean functions over `Nat`, `String` and lists; the analysis and
quick-fix passes become functions from explicit input data (the parts of
the syntax tree the source reads through its cursor API) to the lists of
diagnostics and text edits the source pushes.  Machine integers
(`BigInt`, 64-bit keccak lanes) are modelled as `Nat` with explicit
masking.
-/

/- ## JavaScript / Node string and number primitives used by the source -/

/-- Lowercase hex digits, as produced by `BigInt.prototype.toString(16)`. -/
def lowerHexDigits : List Char := "0123456789abcdef".data

/-- The hex digit character for a value in `0..15` (lowercase). -/
def hexDigitChar (n : Nat) : Char := lowerHexDigits.getD n '0'

/-- Digits of `n` in base 16, most significant first, accumulated onto `acc`;
`fuel` bounds the recursion (any `fuel ≥ n ≥ 1` yields all digits). -/
def natToHexAux : Nat → Nat → List Char → List Char
  | 0, _, acc => acc
  | fuel + 1, n, acc => if n = 0 then acc else natToHexAux fuel (n / 16) (hexDigitChar (n % 16) :: acc)

/-- `n.toString(16)` for a non-negative JavaScript `BigInt`:
lowercase, no leading zeros, `"0"` for zero. -/
def natToHexString (n : Nat) : String := if n = 0 then "0" else String.mk (natToHexAux n n [])

/-- `i.toString(16)` for a JavaScript `BigInt` (negative values print a leading minus). -/
def intToHexString (i : Int) : String :=
  if i < 0 then "-" ++ natToHexString i.natAbs else natToHexString i.toNat

/-- Numeric value of a hex digit character, `none` for non-hex characters. -/
def hexCharVal (c : Char) : Option Nat :=
  let n := c.toNat
  if 48 ≤ n ∧ n ≤ 57 then some (n - 48)
  else if 97 ≤ n ∧ n ≤ 102 then some (n - 87)
  else if 65 ≤ n ∧ n ≤ 70 then some (n - 55)
  else none

/-- Byte list decoded by Node's `Buffer.from(string, 'hex')`: hex pairs are
decoded left to right and decoding stops at the first incomplete or invalid
pair (so a trailing lone nibble of an odd-length string is dropped). -/
def bufferFromHexAux : List Char → List Nat
  | c1 :: c2 :: rest =>
    match hexCharVal c1, hexCharVal c2 with
    | some h, some l => (16 * h + l) :: bufferFromHexAux rest
    | _, _ => []
  | _ => []

/-- Node `Buffer.from(s, 'hex')` as a list of byte values. -/
def bufferFromHex (s : String) : List Nat := bufferFromHexAux s.data

/-- JavaScript `String.prototype.padStart(len, c)`. -/
def padStart (s : String) (len : Nat) (c : Char) : String :=
  String.mk (List.replicate (len - s.data.length) c ++ s.data)

/-- UTF-8 encoding of one character (byte values). -/
def utf8EncodeChar (c : Char) : List Nat :=
  let n := c.toNat
  if n < 0x80 then [n]
  else if n < 0x800 then [0xC0 ||| (n >>> 6), 0x80 ||| (n &&& 0x3F)]
  else if n < 0x10000 then
    [0xE0 ||| (n >>> 12), 0x80 ||| ((n >>> 6) &&& 0x3F), 0x80 ||| (n &&& 0x3F)]
  else
    [0xF0 ||| (n >>> 18), 0x80 ||| ((n >>> 12) &&& 0x3F), 0x80 ||| ((n >>> 6) &&& 0x3F), 0x80 ||| (n &&& 0x3F)]

/-- `Buffer.from(s)`: the UTF-8 bytes of a string. -/
def utf8Bytes (s : String) : List Nat := s.data.flatMap utf8EncodeChar

/-- Whether one character list starts with another. -/
def listStartsWith : List Char → List Char → Bool
  | _, [] => true
  | [], _ :: _ => false
  | c :: t, n :: nt => c == n && listStartsWith t nt

/-- Whether `needle` occurs as a contiguous sublist of the second argument. -/
def charsContain (needle : List Char) : List Char → Bool
  | [] => needle.isEmpty
  | c :: rest => listStartsWith (c :: rest) needle || charsContain needle rest

/-- JavaScript `haystack.includes(needle)` on strings. -/
def jsIncludes (haystack needle : String) : Bool := charsContain needle.data haystack.data

/-- Whether a string ends with the given suffix (models `/suf$/` regex tests). -/
def strEndsWith (s suf : String) : Bool :=
  s.data.drop (s.data.length - suf.data.length) == suf.data

/-- JavaScript `s.split(/\s+/)` up to empty-string fields: splitting on each
whitespace character.  The JS regex collapses whitespace runs into a single
separator, so the two differ only in extra empty-string tokens, which can
never equal the non-empty annotation tokens searched for by the source. -/
def splitWhitespace (s : String) : List String := s.split Char.isWhitespace

/- ## keccak-256 (the `keccak256` of `ethereumjs-util` used by `namespace.ts`) -/

/-- 64-bit lane mask. -/
def mask64 : Nat := 0xFFFFFFFFFFFFFFFF

/-- Left rotation of a 64-bit lane. -/
def rotl64 (x n : Nat) : Nat := ((x <<< n) ||| (x >>> (64 - n))) &&& mask64

/-- Keccak round constants. -/
def keccakRC : List Nat :=
  [1, 32898, 9223372036854808714,
   9223372039002292224, 32907, 2147483649,
   9223372039002292353, 9223372036854808585, 138,
   136, 2147516425, 2147483658,
   2147516555, 9223372036854775947, 9223372036854808713,
   9223372036854808579, 9223372036854808578, 9223372036854775936,
   32778, 9223372039002259466, 9223372039002292353,
   9223372036854808704, 2147483649, 9223372039002292232]

/-- Keccak rotation offsets for lane `x + 5*y` at flat index `x + 5*y`. -/
def keccakRho : List Nat :=
  [0, 1, 62, 28, 27] ++ [36, 44, 6, 55, 20] ++ [3, 10, 43, 25, 39]
    ++ [41, 45, 15, 21, 8] ++ [18, 2, 61, 56, 14]

/-- Lane `i` of a 25-lane state. -/
def lane (s : List Nat) (i : Nat) : Nat := s.getD i 0

/-- θ step. -/
def keccakTheta (s : List Nat) : List Nat :=
  let c := (List.range 5).map fun x =>
    lane s x ^^^ lane s (x + 5) ^^^ lane s (x + 10) ^^^ lane s (x + 15) ^^^ lane s (x + 20)
  let d := (List.range 5).map fun x =>
    lane c ((x + 4) % 5) ^^^ rotl64 (lane c ((x + 1) % 5)) 1
  (List.range 25).map fun i => lane s i ^^^ lane d (i % 5)

/-- ρ and π steps: lane `(x, y)` rotates and moves to `(y, 2x + 3y mod 5)`. -/
def keccakRhoPi (s : List Nat) : List Nat :=
  (List.range 25).foldl
    (fun b i =>
      b.set ((i / 5) + 5 * ((2 * (i % 5) + 3 * (i / 5)) % 5)) (rotl64 (lane s i) (lane keccakRho i)))
    (List.replicate 25 0)

/-- χ step. -/
def keccakChi (s : List Nat) : List Nat :=
  (List.range 25).map fun i =>
    lane s i ^^^ ((lane s ((i % 5 + 1) % 5 + 5 * (i / 5)) ^^^ mask64) &&& lane s ((i % 5 + 2) % 5 + 5 * (i / 5)))

/-- ι step. -/
def keccakIota (s : List Nat) (rc : Nat) : List Nat :=
  match s with
  | a :: t => (a ^^^ rc) :: t
  | [] => []

/-- The keccak-f[1600] permutation (24 rounds). -/
def keccakF (s : List Nat) : List Nat :=
  keccakRC.foldl (fun st rc => keccakIota (keccakChi (keccakRhoPi (keccakTheta st))) rc) s

/-- Original keccak padding (`0x01 … 0x80`, or a single `0x81`) to a
multiple of the 136-byte rate. -/
def keccakPad (msg : List Nat) : List Nat :=
  let padLen := 136 - msg.length % 136
  if padLen = 1 then msg ++ [0x81] else msg ++ [0x01] ++ List.replicate (padLen - 2) 0 ++ [0x80]

/-- A 64-bit lane from up to eight little-endian bytes. -/
def laneFromBytes (bytes : List Nat) : Nat := bytes.foldr (fun b acc => acc * 256 + b) 0

/-- Absorb one 136-byte block into the state and permute. -/
def absorbBlock (s : List Nat) (block : List Nat) : List Nat :=
  keccakF ((List.range 25).map fun i =>
    lane s i ^^^ (if i < 17 then laneFromBytes ((block.drop (8 * i)).take 8) else 0))

/-- Absorb a padded message (length a multiple of 136). -/
def keccakAbsorb (msg : List Nat) : List Nat :=
  (List.range (msg.length / 136)).foldl
    (fun s i => absorbBlock s ((msg.drop (136 * i)).take 136)) (List.replicate 25 0)

/-- keccak-256 of a byte list: 32 output bytes. -/
def keccak256 (msg : List Nat) : List Nat :=
  let s := keccakAbsorb (keccakPad msg)
  (List.range 32).map fun i => (lane s (i / 8) >>> (8 * (i % 8))) &&& 255

/-- The unsigned integer denoted by `BigInt('0x' + buf.toString('hex'))`:
bytes interpreted big-endian. -/
def bytesToNatBE (bytes : List Nat) : Nat := bytes.foldl (fun acc b => acc * 256 + b) 0

/- ## `namespace.ts` -/

/-- A half-open source range, in character offsets. -/
structure SrcRange where
  startOff : Nat
  endOff : Nat
deriving DecidableEq, Repr

/-- `Variable` of `namespace.ts`: declaration text, name, trimmed source range. -/
structure NsVariable where
  content : String
  name : String
  range : SrcRange
deriving DecidableEq, Repr

/-- `getNamespaceId(namespacePrefix, contractName)`: the empty string and
`undefined` are both falsy in JS, so both yield the bare contract name. -/
def getNamespaceId (namespacePrefixOpt : Option String) (contractName : String) : String :=
  match namespacePrefixOpt with
  | some p => if p = "" then contractName else p ++ "." ++ contractName
  | none => contractName

/-- `calculateERC7201StorageLocation(id)` of `namespace.ts`, line for line:
`keccak256(Buffer.from(id))`, `BigInt('0x' + hex) - 1n`,
`Buffer.from(minusOne.toString(16), 'hex')`, a second `keccak256`,
`& ~0xffn` (clearing the low byte of a non-negative value), and
`toString(16).padStart(64, '0')` behind an `'0x'` prefix. -/
def calculateERC7201StorageLocation (id : String) : String :=
  let firstHash := keccak256 (utf8Bytes id)
  let minusOne : Int := (bytesToNatBE firstHash : Int) - 1
  let minusOneBuffer := bufferFromHex (intToHexString minusOne)
  let secondHash := keccak256 minusOneBuffer
  let masked := (bytesToNatBE secondHash / 256) * 256
  let padded := padStart (natToHexString masked) 64 '0'
  "0x" ++ padded

/-- The byte list the source passes to the second hash, for claim C3. -/
def minusOneBufferOf (id : String) : List Nat :=
  bufferFromHex (intToHexString ((bytesToNatBE (keccak256 (utf8Bytes id)) : Int) - 1))

/-- Base-256 digits of `n`, most significant first, accumulated onto `acc`;
`fuel` bounds the recursion (any `fuel ≥ n ≥ 1` yields all digits). -/
def natToBytesAux : Nat → Nat → List Nat → List Nat
  | 0, _, acc => acc
  | fuel + 1, n, acc => if n = 0 then acc else natToBytesAux fuel (n / 256) (n % 256 :: acc)

/-- Modelled from the spec: "Re-encode the result as a big-endian byte string
(minimal length, i.e. without forced leading zero bytes)" — the minimal
unsigned big-endian byte encoding of a natural number (empty for zero). -/
def specMinimalBigEndian (n : Nat) : List Nat := natToBytesAux n n []

/- ## Diagnostic codes and payloads (`diagnostics.ts`, `server.ts`) -/

def VARIABLE_CAN_BE_NAMESPACED : String := "VariableCanBeNamespaced"
def CONTRACT_CAN_BE_NAMESPACED : String := "ContractCanBeNamespaced"
def NAMESPACE_ID_MISMATCH : String := "NamespaceIdMismatch"
def NAMESPACE_ID_MISMATCH_HASH_COMMENT : String := "NamespaceIdMismatchHashComment"
def NAMESPACE_HASH_MISMATCH : String := "NamespaceHashMismatch"
def NAMESPACE_STANDALONE_HASH_MISMATCH : String := "NamespaceStandaloneHashMismatch"
def VARIABLE_HAS_INITIAL_VALUE : String := "VariableHasInitialValue"

/-- `NamespaceableContract` of `server.ts`. -/
structure NamespaceableContract where
  name : String
  vars : List NsVariable
deriving DecidableEq, Repr

/-- The repair payload attached to a diagnostic (`data` field, an `LSPAny`):
either a `{ replacement: ... }` object or a `NamespaceableContract`. -/
inductive DiagPayload where
  | replacementPayload (text : String)
  | contractPayload (c : NamespaceableContract)
deriving DecidableEq, Repr

/-- A published diagnostic: severity (1 Error, 2 Warning, 3 Information,
4 Hint), range, message, rule code, and optional repair payload. -/
structure Diag where
  severity : Nat
  range : SrcRange
  message : String
  code : String
  data : Option DiagPayload
deriving DecidableEq, Repr

/- ## Syntax-tree input data for the analysis pass (`diagnostics.ts`)

The analysis reads a contract through the slang cursor API.  The embedding
records, per contract, exactly the tree facts those cursor walks extract:
the direct inheritance identifier paths, the declared functions' names and
parameter type texts, the contract documentation comment, the structs with
their documentation comments, and the state variables in source order. -/

/-- One type in a contract's direct inheritance list, as the identifier-path
segments of its type name (`type.typeName.items`). -/
structure InheritedType where
  pathItems : List String
deriving DecidableEq, Repr

/-- One function parameter, as the unparse of its type (`typeName.cst.unparse()`). -/
structure FnParam where
  typeText : String
deriving DecidableEq, Repr

/-- One function declared in the contract. -/
structure FnDef where
  name : String
  params : List FnParam
deriving DecidableEq, Repr

/-- A state-variable attribute: the `immutable` keyword, the `constant`
keyword, or any other attribute (visibility, `override`, ...). -/
inductive VarAttr where
  | immutableKeyword
  | constantKeyword
  | otherAttr
deriving DecidableEq, Repr

/-- A line or block comment preceding a state variable, together with the
identifier captured by the slot-formula regular expression
`keccak256(abi.encode(uint256(keccak256("(.*)")) - 1)) & ~bytes32(uint256(0xff))`
when the comment text matches it (`matchId = none` when it does not). -/
structure CommentSrc where
  matchId : Option String
  range : SrcRange
deriving DecidableEq, Repr

/-- A state-variable definition as read by the analysis: its attributes,
name, type text, optional initializer expression text, trimmed declaration
text and range, the trimmed range of its initializer expression (meaningful
when `value` is present), and the last preceding line/block comment, if any. -/
structure StateVar where
  attributes : List VarAttr
  name : String
  typeName : String
  value : Option String
  text : String
  range : SrcRange
  exprRange : SrcRange
  precedingComment : Option CommentSrc
deriving DecidableEq, Repr

/-- A struct definition, with its documentation comment when present;
`matchId` holds the identifier captured by the
`@custom:storage-location erc7201:(\S+)` pattern when the text matches. -/
structure StructSrc where
  natspec : Option CommentSrc
deriving DecidableEq, Repr

/-- A contract definition as read by the analysis pass.  `unparseText` and
`trimmedRange` are the unparse text and trimmed range of the contract node
itself: a spawned cursor that exhausts its subtree completes at that root
node, and the hash pass then reads them in place of an initializer
expression. -/
structure ContractDef where
  name : String
  isValid : Bool
  identStart : Nat
  defEnd : Nat
  inheritance : Option (List InheritedType)
  functions : List FnDef
  natspec : Option String
  structs : List StructSrc
  stateVars : List StateVar
  unparseText : String
  trimmedRange : SrcRange
deriving DecidableEq, Repr

/- ## `diagnostics.ts` -/

/-- `inferUpgradeable(cursor, contractDef)`: inherits `Initializable` or
`UUPSUpgradeable`, or declares `_authorizeUpgrade(address)`, or carries an
`@custom:oz-upgrades` / `@custom:oz-upgrades-from` NatSpec token. -/
def inferUpgradeable (c : ContractDef) : Bool :=
  let hasInitializable := match c.inheritance with
    | some ts => ts.any fun t => t.pathItems.any fun item => item == "Initializable"
    | none => false
  let hasUUPSUpgradeable := match c.inheritance with
    | some ts => ts.any fun t => t.pathItems.any fun item => item == "UUPSUpgradeable"
    | none => false
  if hasInitializable || hasUUPSUpgradeable then true
  else if c.functions.any fun f =>
      f.name == "_authorizeUpgrade" &&
        (f.params.length == 1 && (f.params.headD ⟨""⟩).typeText == "address") then true
  else match c.natspec with
    | none => false
    | some t =>
      (splitWhitespace t).contains "@custom:oz-upgrades" ||
        (splitWhitespace t).contains "@custom:oz-upgrades-from"

/-- One iteration of the attribute loop of
`validateNamespaceableVariables`: `immutable` or `constant` sets the
`ignoreVariable` flag; any other attribute recreates the variable without
attributes as `<type> <name>;`. -/
def variableAttrStep (v : StateVar) (acc : Bool × String) (a : VarAttr) : Bool × String :=
  match a with
  | VarAttr.immutableKeyword => (true, acc.2)
  | VarAttr.constantKeyword => (true, acc.2)
  | VarAttr.otherAttr => (acc.1, v.typeName ++ " " ++ v.name ++ ";")

/-- The `ignoreVariable` flag and `replacement` text computed by the
attribute loop of `validateNamespaceableVariables` (the replacement starts
as the trimmed declaration text). -/
def variableReplacementAndIgnore (v : StateVar) : Bool × String :=
  v.attributes.foldl (variableAttrStep v) (false, v.text)

/-- One iteration of the state-variable loop of
`validateNamespaceableVariables`: the diagnostics pushed and the variables
appended to the `NamespaceableContract`. -/
def validateVariable (skipDiagnostic : Bool) (v : StateVar) : List Diag × List NsVariable :=
  let ir := variableReplacementAndIgnore v
  if ir.1 then ([], [])
  else
    match v.value with
    | some _ =>
      ((if skipDiagnostic then [] else
        [⟨2, v.range, "Variable has initial value", VARIABLE_HAS_INITIAL_VALUE, none⟩]), [])
    | none =>
      ((if skipDiagnostic then [] else
        [⟨3, v.range, "Variable can be namespaced.", VARIABLE_CAN_BE_NAMESPACED, none⟩]),
       [⟨ir.2, v.name, v.range⟩])

/-- One step of the `validateNamespaceableVariables` fold: append the
diagnostics and the collected variables of one state variable. -/
def validateVariablesStep (skipDiagnostic : Bool) (acc : List Diag × List NsVariable)
    (v : StateVar) : List Diag × List NsVariable :=
  let r := validateVariable skipDiagnostic v
  (acc.1 ++ r.1, acc.2 ++ r.2)

/-- `validateNamespaceableVariables` continued: the fold over the contract's
state variables, in source order. -/
def validateNamespaceableVariables (skipDiagnostic : Bool) (vars : List StateVar) :
    List Diag × List NsVariable :=
  vars.foldl (validateVariablesStep skipDiagnostic) ([], [])

/-- `validateNamespaceableContract`: one `ContractCanBeNamespaced` hint when
at least one eligible variable was collected, carrying the
`NamespaceableContract` as payload. -/
def validateNamespaceableContract (c : ContractDef) (vars : List NsVariable) : List Diag :=
  if vars.length > 0 then
    [⟨4, ⟨c.identStart, c.defEnd⟩, "Contract can be namespaced.", CONTRACT_CAN_BE_NAMESPACED,
      some (DiagPayload.contractPayload ⟨c.name, vars⟩)⟩]
  else []

/-- The struct-annotation check of `validateNamespaceStructAnnotation`
(source name), per struct: when the documentation comment matches the
`@custom:storage-location erc7201:` pattern with an unexpected identifier,
emit `NamespaceIdMismatch` with the corrected annotation as repair. -/
def validateStructAnnotationRule (prefixStr : String) (c : ContractDef) : List Diag :=
  c.structs.flatMap fun st =>
    match st.natspec with
    | none => []
    | some ns =>
      match ns.matchId with
      | none => []
      | some mid =>
        let expectedNamespaceId := getNamespaceId (some prefixStr) c.name
        if mid = expectedNamespaceId then []
        else
          [⟨2, ns.range, "Unexpected namespace id", NAMESPACE_ID_MISMATCH,
            some (DiagPayload.replacementPayload
              ("/// @custom:storage-location erc7201:" ++ expectedNamespaceId))⟩]

/-- Whether a variable name matches `/_STORAGE_LOCATION$/` or `/StorageLocation$/`. -/
def endsWithStorageSuffix (name : String) : Bool :=
  strEndsWith name "_STORAGE_LOCATION" || strEndsWith name "StorageLocation"

/-- Whether the variable has a preceding comment that matched the
slot-derivation formula pattern (captured a namespace identifier). -/
def hasMatchingFormulaComment (v : StateVar) : Bool :=
  match v.precedingComment with
  | some com => com.matchId.isSome
  | none => false

/-- JS `!==` between the string `expectedHashFromNamespace` and the
possibly-undefined `expectedHashFromComment`. -/
def hashNeOpt (s : String) (o : Option String) : Bool :=
  match o with
  | none => true
  | some t => !(s == t)

/-- The preceding-comment half of one iteration of the state-variable loop
of `validateNamespaceCommentAndHash`: the `NamespaceIdMismatchHashComment`
check, returning
`(expectedHashFromComment, commentHasUnexpectedNamespace, diagnostics)`. -/
def hashCommentCheck (prefixStr contractName : String) (v : StateVar) :
    Option String × Bool × List Diag :=
  match v.precedingComment with
  | none => (none, false, [])
  | some com =>
    match com.matchId with
    | none => (none, false, [])
    | some mid =>
      let expectedNamespaceId := getNamespaceId (some prefixStr) contractName
      if mid = expectedNamespaceId then
        (some (calculateERC7201StorageLocation mid), false, [])
      else
        (some (calculateERC7201StorageLocation mid), true,
         [⟨2, com.range, "Unexpected namespace id", NAMESPACE_ID_MISMATCH_HASH_COMMENT,
           some (DiagPayload.replacementPayload
             ("// keccak256(abi.encode(uint256(keccak256(\"" ++ expectedNamespaceId ++
               "\")) - 1)) & ~bytes32(uint256(0xff))"))⟩])

/-- The expression half of one loop iteration, applied to the expression
text and trimmed range the shared cursor landed on: the
`NamespaceHashMismatch` diagnostic (the text does not contain the hash
implied by the comment) followed by the `NamespaceStandaloneHashMismatch`
diagnostic (no comment mismatch was reported, the expected-identifier hash
differs from the comment hash, and the text does not contain it).  Both are
ranged at the expression's trimmed range. -/
def hashValueCheck (prefixStr contractName text : String) (rng : SrcRange)
    (expectedHashFromComment : Option String) (commentHasUnexpectedNamespace : Bool) : List Diag :=
  let expectedNamespaceId := getNamespaceId (some prefixStr) contractName
  let expectedHashFromNamespace := calculateERC7201StorageLocation expectedNamespaceId
  let d1 := match expectedHashFromComment with
    | some h =>
      if !(jsIncludes text h) then
        [⟨2, rng, "ERC7201 storage location hash does not match comment",
          NAMESPACE_HASH_MISMATCH, some (DiagPayload.replacementPayload h)⟩]
      else []
    | none => []
  let d2 :=
    if !commentHasUnexpectedNamespace &&
        hashNeOpt expectedHashFromNamespace expectedHashFromComment &&
        !(jsIncludes text expectedHashFromNamespace) then
      [⟨2, rng, "ERC7201 storage location hash does not match expected namespace id",
        NAMESPACE_STANDALONE_HASH_MISMATCH,
        some (DiagPayload.replacementPayload expectedHashFromNamespace)⟩]
    else []
  d1 ++ d2

/-- Where the `goToNextNonterminalWithKind(StateVariableDefinitionValue)`
call starting from the current variable's definition node lands: the first
variable from the current one onward that has an initializer — its
expression text, the expression's trimmed range, and the variables after it
(where the loop's next `StateVariableDefinition` search resumes) — or
`none` when no initializer remains and the cursor completes. -/
def hashSuffixTarget : List StateVar → Option (String × SrcRange × List StateVar)
  | [] => none
  | v :: rest =>
    match v.value with
    | some txt => some (txt, v.exprRange, rest)
    | none => hashSuffixTarget rest

/-- The state-variable loop of `validateNamespaceCommentAndHash` with its
shared cursor made explicit.  Per iteration: the preceding-comment check on
the current variable; then, for suffix-named variables, the unchecked
cursor advance to the next `StateVariableDefinitionValue` / `Expression` —
this variable's own initializer when present, else a LATER variable's
initializer (whose expression text and range are then used, the loop
resuming after that variable and skipping the ones in between), else the
completed cursor's root, the contract node, whose unparse text and trimmed
range are used before the exhausted loop ends.  `fuel` bounds the
recursion; every iteration consumes at least one variable, so any
`fuel ≥` the list length is exact. -/
def validateNamespaceCommentAndHashLoop (prefixStr contractName contractText : String)
    (contractRange : SrcRange) : Nat → List StateVar → List Diag
  | 0, _ => []
  | _ + 1, [] => []
  | fuel + 1, v :: rest =>
    let cr := hashCommentCheck prefixStr contractName v
    if endsWithStorageSuffix v.name then
      match hashSuffixTarget (v :: rest) with
      | some (txt, rng, rest2) =>
        cr.2.2 ++ hashValueCheck prefixStr contractName txt rng cr.1 cr.2.1
          ++ validateNamespaceCommentAndHashLoop prefixStr contractName contractText
              contractRange fuel rest2
      | none =>
        cr.2.2 ++ hashValueCheck prefixStr contractName contractText contractRange cr.1 cr.2.1
    else
      cr.2.2 ++ validateNamespaceCommentAndHashLoop prefixStr contractName contractText
          contractRange fuel rest

/-- `validateNamespaceCommentAndHash`: the loop started on the contract's
state variables (their number bounds the number of iterations). -/
def validateNamespaceCommentAndHash (prefixStr : String) (c : ContractDef) : List Diag :=
  validateNamespaceCommentAndHashLoop prefixStr c.name c.unparseText c.trimmedRange
    c.stateVars.length c.stateVars

/-- The per-contract body of the `validateNamespaces` loop: skip contracts
whose isolated re-parse is invalid; run the upgradeable-gated checks when
`inferUpgradeable` holds; run the variable rule with
`skipDiagnostic = !inferredUpgradeable`; finally the contract-level rule. -/
def analyzeContract (prefixStr : String) (c : ContractDef) : List Diag :=
  if !c.isValid then []
  else
    let inferredUpgradeable := inferUpgradeable c
    let gated :=
      if inferredUpgradeable then
        validateStructAnnotationRule prefixStr c ++ validateNamespaceCommentAndHash prefixStr c
      else []
    let vr := validateNamespaceableVariables (!inferredUpgradeable) c.stateVars
    gated ++ vr.1 ++ validateNamespaceableContract c vr.2

/-- `validateNamespaces` over a parsed source unit (its contracts in order). -/
def validateNamespaces (prefixStr : String) (doc : List ContractDef) : List Diag :=
  doc.flatMap (analyzeContract prefixStr)

/-- The eligible-variable list a contract ends the pass with (it does not
depend on the `skipDiagnostic` flag). -/
def eligibleVariables (c : ContractDef) : List NsVariable :=
  (validateNamespaceableVariables true c.stateVars).2

/-- Number of diagnostics with a given rule code. -/
def countCode (ds : List Diag) (code : String) : Nat :=
  (ds.filter fun d => d.code == code).length

/-- The rule codes of a diagnostic list, in order. -/
def codesOf (ds : List Diag) : List String := ds.map Diag.code

/- ## `quickfixes.ts` -/

/-- A text edit: a range to replace and its replacement text. -/
structure TextEdit where
  range : SrcRange
  newText : String
deriving DecidableEq, Repr

/-- A code action: its title and the edits of its workspace edit. -/
structure CodeAction where
  title : String
  edits : List TextEdit
deriving DecidableEq, Repr

/-- An identifier terminal inside a function body. -/
structure QfIdent where
  text : String
  range : SrcRange
deriving DecidableEq, Repr

/-- A constructor or function of the contract, as read by the quick-fix
pass: the unparse of its block, the range of the block's opening brace, and
the identifier terminals inside the block, in order. -/
structure QfFunction where
  bodyUnparse : String
  openBrace : SrcRange
  identifiers : List QfIdent
deriving DecidableEq, Repr

/-- A contract as read by the quick-fix pass over a fresh parse of the
document: name, isolated re-parse validity, the text of the first
single-line NatSpec comment terminal in the contract (if any), the range of
the first closing-brace terminal, and the constructors/functions. -/
structure QfContract where
  name : String
  isValid : Bool
  firstNatspecText : Option String
  firstCloseBrace : SrcRange
  functions : List QfFunction
deriving DecidableEq, Repr

/-- `getNamespaceStructEndRange`: when the first NatSpec comment of the
contract contains the expected `@custom:storage-location` annotation, the
range of the first closing brace; `none` otherwise. -/
def getNamespaceStructEndRange (c : QfContract) (prefixStr contractName : String) : Option SrcRange :=
  match c.firstNatspecText with
  | none => none
  | some t =>
    if jsIncludes t ("@custom:storage-location erc7201:" ++ getNamespaceId (some prefixStr) contractName)
    then some c.firstCloseBrace
    else none

/-- The accessor-declaration line `addStorageGetter` looks for and inserts. -/
def storageGetterLine (contractName : String) : String :=
  contractName ++ "Storage storage $ = _get" ++ contractName ++ "Storage();"

/-- The text `addStorageGetter` writes over the opening brace. -/
def storageGetterInsertText (contractName indent : String) : String :=
  "\x7b\n" ++ indent ++ indent ++ storageGetterLine contractName ++ "\n"

/-- `addStorageGetter`: insert the accessor declaration after the opening
brace, unless the exact line already occurs in the unparsed block. -/
def addStorageGetter (contractName blockUnparse : String) (openBrace : SrcRange)
    (edits : List TextEdit) (indent : String) : List TextEdit :=
  if jsIncludes blockUnparse (storageGetterLine contractName) then edits
  else edits ++ [⟨openBrace, storageGetterInsertText contractName indent⟩]

/-- `replaceVariables`: rewrite every identifier matching an eligible
variable's name to `$.<name>`; report whether any rewrite happened. -/
def replaceVariables (f : QfFunction) (varList : List NsVariable) : List TextEdit × Bool :=
  f.identifiers.foldl
    (fun acc id =>
      if varList.any fun v => v.name == id.text then
        (acc.1 ++ [⟨id.range, "$." ++ id.text⟩], true)
      else acc)
    ([], false)

/-- `editNamespaceVariablesInFunctions`: per constructor/function, the
identifier rewrites followed, when any occurred, by the accessor insertion. -/
def editNamespaceVariablesInFunctions (c : QfContract) (contractName : String)
    (varList : List NsVariable) : List TextEdit :=
  c.functions.foldl
    (fun edits f =>
      let rv := replaceVariables f varList
      let edits2 := edits ++ rv.1
      if rv.2 then addStorageGetter contractName f.bodyUnparse f.openBrace edits2 "    "
      else edits2)
    []

/-- `printNamespaceTemplate` of `namespace.ts`: the reference ERC-7201
namespace block for a contract and its variables. -/
def printNamespaceTemplate (prefixStrOpt : Option String) (contractName : String)
    (varList : List NsVariable) (indent : String) : String :=
  let namespaceId := getNamespaceId prefixStrOpt contractName
  let structName := contractName ++ "Storage"
  let locationName := structName ++ "Location"
  let rootLocation := calculateERC7201StorageLocation namespaceId
  "/// @custom:storage-location erc7201:" ++ namespaceId ++ "\n"
    ++ indent ++ "struct " ++ structName ++ " \x7b\n"
    ++ String.intercalate "\n" (varList.map fun v => indent ++ indent ++ v.content) ++ "\n"
    ++ indent ++ "\x7d\n\n"
    ++ indent ++ "// keccak256(abi.encode(uint256(keccak256(\"" ++ namespaceId
    ++ "\")) - 1)) & ~bytes32(uint256(0xff))\n"
    ++ indent ++ "bytes32 private constant " ++ locationName ++ " = " ++ rootLocation ++ ";\n\n"
    ++ indent ++ "function _get" ++ structName ++ "() private pure returns (" ++ structName
    ++ " storage $) \x7b\n"
    ++ indent ++ indent ++ "assembly \x7b\n"
    ++ indent ++ indent ++ indent ++ "$.slot := " ++ locationName ++ "\n"
    ++ indent ++ indent ++ "\x7d\n"
    ++ indent ++ "\x7d\n"

/-- `editNewNamespace`: replace the first variable's range with the full
namespace block, delete the remaining variables.  The source indexes
`variables[0]`, which its caller guards by returning early when the list is
empty; the empty case here is unreachable from that caller. -/
def editNewNamespace (prefixStr contractName : String) (varList : List NsVariable) : List TextEdit :=
  match varList with
  | [] => []
  | v0 :: rest =>
    ⟨v0.range, printNamespaceTemplate (some prefixStr) contractName (v0 :: rest) "    "⟩
      :: rest.map fun v => ⟨v.range, ""⟩

/-- `editExistingNamespace`: per variable, delete its declaration range and
write `<indent><content>\n<indent>}` over the struct's closing-brace range. -/
def editExistingNamespace (varList : List NsVariable) (structEndRange : SrcRange)
    (indent : String) : List TextEdit :=
  varList.flatMap fun v =>
    [⟨v.range, ""⟩,
     ⟨structEndRange, indent ++ v.content ++ "\n" ++ indent ++ "\x7d"⟩]

/-- `getMoveAllVariablesToNamespaceQuickFix`: locate the first valid
contract with the requested name in a fresh parse, compute the function-body
rewrites and the namespace-struct anchor from it, then produce the combined
edit set (or `none` when there are no variables). -/
def getMoveAllVariablesToNamespaceQuickFix (doc : List QfContract)
    (title prefixStr contractName : String) (varList : List NsVariable) : Option CodeAction :=
  let found := doc.find? fun c => c.isValid && c.name == contractName
  let structEnd := match found with
    | some c => getNamespaceStructEndRange c prefixStr contractName
    | none => none
  let fnEdits := match found with
    | some c => editNamespaceVariablesInFunctions c contractName varList
    | none => []
  if varList.length = 0 then none
  else
    let nsEdits := match structEnd with
      | none => editNewNamespace prefixStr contractName varList
      | some r => editExistingNamespace varList r "    "
    some ⟨title, fnEdits ++ nsEdits⟩

/- ## `server.ts` code-action dispatch -/

/-- `String(diagnostic.data.replacement)`: the replacement text when the
payload is a replacement object, the string `"undefined"` when the payload
is some other object (JS stringifies a missing property as `undefined`). -/
def jsStringOfPayload : DiagPayload → String
  | DiagPayload.replacementPayload t => t
  | DiagPayload.contractPayload _ => "undefined"

/-- The fix assembly for one diagnostic inside the `getCodeActions` loop.
`Except.error` marks the places where the JS dereferences a field of an
`undefined` payload and throws a `TypeError`: reading
`diagnostic.data.replacement` or `diagnostic.data.name` when `data` is
absent, and reading `variables.length` inside the move-all fix when the
payload carries no variable list. -/
def assembleFix (doc : List QfContract) (prefixStr : String) (d : Diag) :
    Except String (Option CodeAction) :=
  if d.code == NAMESPACE_ID_MISMATCH then
    match d.data with
    | none => Except.error "TypeError"
    | some p => Except.ok (some ⟨"Replace namespace id", [⟨d.range, jsStringOfPayload p⟩]⟩)
  else if d.code == NAMESPACE_ID_MISMATCH_HASH_COMMENT then
    match d.data with
    | none => Except.error "TypeError"
    | some p => Except.ok (some ⟨"Replace namespace comment", [⟨d.range, jsStringOfPayload p⟩]⟩)
  else if d.code == NAMESPACE_HASH_MISMATCH then
    match d.data with
    | none => Except.error "TypeError"
    | some p => Except.ok (some ⟨"Recalculate hash using comment", [⟨d.range, jsStringOfPayload p⟩]⟩)
  else if d.code == NAMESPACE_STANDALONE_HASH_MISMATCH then
    match d.data with
    | none => Except.error "TypeError"
    | some p => Except.ok (some ⟨"Recalculate hash using expected id", [⟨d.range, jsStringOfPayload p⟩]⟩)
  else if d.code == CONTRACT_CAN_BE_NAMESPACED then
    match d.data with
    | none => Except.error "TypeError"
    | some (DiagPayload.replacementPayload _) => Except.error "TypeError"
    | some (DiagPayload.contractPayload nc) =>
      Except.ok (getMoveAllVariablesToNamespaceQuickFix doc "Move all variables to namespace"
        prefixStr nc.name nc.vars)
  else Except.ok none

/-- The `getCodeActions` loop with its surrounding `try/catch`: diagnostics
are processed in order; an exception abandons the loop and returns the
actions accumulated so far. -/
def getCodeActionsGo (doc : List QfContract) (prefixStr : String) :
    List Diag → List CodeAction → List CodeAction
  | [], acc => acc
  | d :: rest, acc =>
    match assembleFix doc prefixStr d with
    | Except.error _ => acc
    | Except.ok none => getCodeActionsGo doc prefixStr rest acc
    | Except.ok (some a) => getCodeActionsGo doc prefixStr rest (acc ++ [a])

/-- `getCodeActions(diagnostics, textDocument, params)`. -/
def getCodeActions (doc : List QfContract) (prefixStr : String) (ds : List Diag) : List CodeAction :=
  getCodeActionsGo doc prefixStr ds []

/- ## Range helpers for the non-overlap claim -/

/-- Whether two half-open ranges intersect. -/
def rangesIntersect (a b : SrcRange) : Bool :=
  max a.startOff b.startOff < min a.endOff b.endOff

/-- Whether no two edits of the list have intersecting ranges. -/
def pairwiseDisjoint : List TextEdit → Bool
  | [] => true
  | e :: rest => (rest.all fun e2 => !rangesIntersect e.range e2.range) && pairwiseDisjoint rest

/- ## Claim-side predicates and derived definitions -/

/-- Claim C6 (a): the direct inheritance list contains a type literally
named `n` (one of its identifier-path segments is `n`). -/
def inheritsTypeNamed (c : ContractDef) (n : String) : Bool :=
  match c.inheritance with
  | some ts => ts.any fun t => t.pathItems.contains n
  | none => false

/-- Claim C6 (b): the contract declares a function named `_authorizeUpgrade`
with exactly one parameter whose type unparses to `address`. -/
def declaresAuthorizeUpgradeAddress (c : ContractDef) : Bool :=
  c.functions.any fun f =>
    f.name == "_authorizeUpgrade" &&
      (f.params.length == 1 && f.params.all fun p => p.typeText == "address")

/-- Claim C6 (c): the contract's documentation-comment text, split on
whitespace, includes `@custom:oz-upgrades` or `@custom:oz-upgrades-from`. -/
def docTokensIncludeUpgradeAnnot (c : ContractDef) : Bool :=
  match c.natspec with
  | none => false
  | some t =>
    (splitWhitespace t).contains "@custom:oz-upgrades" ||
      (splitWhitespace t).contains "@custom:oz-upgrades-from"

/-- Whether an attribute is the `constant` or `immutable` keyword. -/
def isConstOrImmAttr : VarAttr → Bool
  | VarAttr.immutableKeyword => true
  | VarAttr.constantKeyword => true
  | VarAttr.otherAttr => false

/-- Whether a state variable carries the `constant` or `immutable` keyword. -/
def hasConstantOrImmutable (v : StateVar) : Bool :=
  v.attributes.any isConstOrImmAttr

/-- The repair payloads of the diagnostics with a given rule code. -/
def payloadsOfCode (ds : List Diag) (code : String) : List DiagPayload :=
  ds.filterMap fun d => if d.code == code then d.data else none

/- ## Concrete sample inputs used by counterexamples and witnesses -/

/-- A plain `uint256 x;` state variable without initializer (the expression
range is a placeholder, there being no initializer). -/
def sampleVarX : StateVar := ⟨[], "x", "uint256", none, "uint256 x;", ⟨50, 60⟩, ⟨0, 0⟩, none⟩

/-- Claim C1's scenario contract `Foo`: no inheritance, no
`_authorizeUpgrade`, no annotation, one plain state variable. -/
def sampleFoo : ContractDef :=
  ⟨"Foo", true, 9, 100, none, [], none, [], [sampleVarX],
    "contract Foo \x7b\n    uint256 x;\n\x7d", ⟨0, 100⟩⟩

/-- `contract Bar is Initializable` with one plain state variable. -/
def sampleBar : ContractDef :=
  ⟨"Bar", true, 9, 100, some [⟨["Initializable"]⟩], [], none, [], [sampleVarX],
    "contract Bar is Initializable \x7b\n    uint256 x;\n\x7d", ⟨0, 100⟩⟩

/-- A constant state variable (`uint256 constant C = 1;`). -/
def sampleVarC : StateVar :=
  ⟨[VarAttr.constantKeyword], "C", "uint256", some "1", "uint256 constant C = 1;", ⟨70, 93⟩,
    ⟨91, 92⟩, none⟩

/-- `sampleBar` with an extra constant variable. -/
def sampleBarWithConst : ContractDef :=
  ⟨"Bar", true, 9, 100, some [⟨["Initializable"]⟩], [], none, [], [sampleVarX, sampleVarC],
    "contract Bar is Initializable \x7b\n    uint256 x;\n    uint256 constant C = 1;\n\x7d",
    ⟨0, 100⟩⟩

/-- Two eligible variables for the move-all fix. -/
def sampleVarA : NsVariable := ⟨"uint256 a;", "a", ⟨10, 20⟩⟩

/-- Second eligible variable for the move-all fix. -/
def sampleVarB : NsVariable := ⟨"address b;", "b", ⟨30, 40⟩⟩

/-- A quick-fix view of contract `Foo` that already carries the expected
`@custom:storage-location erc7201:p.Foo` namespace annotation, with the
struct's closing brace at offsets 100–101. -/
def sampleQfFoo : QfContract :=
  ⟨"Foo", true, some "/// @custom:storage-location erc7201:p.Foo", ⟨100, 101⟩, []⟩

/-- A diagnostic whose `data` payload is absent, as a client may send back. -/
def sampleBadDiag : Diag := ⟨2, ⟨0, 1⟩, "Unexpected namespace id", NAMESPACE_ID_MISMATCH, none⟩

/-- A well-formed `NamespaceIdMismatch` diagnostic with a replacement payload. -/
def sampleGoodDiag : Diag :=
  ⟨2, ⟨2, 3⟩, "Unexpected namespace id", NAMESPACE_ID_MISMATCH,
    some (DiagPayload.replacementPayload "X")⟩

/-- A suffix-named storage-location constant with an initializer that does
not contain the expected hash, and no preceding comment. -/
def sampleLocVar : StateVar :=
  ⟨[VarAttr.constantKeyword], "FOO_STORAGE_LOCATION", "bytes32", some "0x00",
    "bytes32 constant FOO_STORAGE_LOCATION = 0x00;", ⟨0, 45⟩, ⟨40, 44⟩, none⟩

/-- A contract whose only state variable is `sampleLocVar`. -/
def sampleLocContract : ContractDef :=
  ⟨"Foo", true, 9, 100, some [⟨["Initializable"]⟩], [], none, [],
    [sampleLocVar], "contract Foo is Initializable \x7b ... \x7d", ⟨0, 100⟩⟩

/-- A suffix-named variable WITHOUT an initializer whose preceding comment
matches the slot formula with the wrong identifier `wrong.Id`: its loop
iteration hijacks the next variable's initializer. -/
def sampleHijackU : StateVar :=
  ⟨[VarAttr.constantKeyword], "FOO_STORAGE_LOCATION", "bytes32", none,
    "bytes32 private constant FOO_STORAGE_LOCATION;", ⟨10, 56⟩, ⟨0, 0⟩,
    some ⟨some "wrong.Id", ⟨0, 9⟩⟩⟩

/-- A suffix-named variable with an initializer lacking every hash and no
preceding comment, declared right after `sampleHijackU`. -/
def sampleHijackV : StateVar :=
  ⟨[VarAttr.constantKeyword], "BAR_STORAGE_LOCATION", "bytes32", some "0x1234",
    "bytes32 private constant BAR_STORAGE_LOCATION = 0x1234;", ⟨60, 115⟩, ⟨108, 114⟩, none⟩

/-- The contract holding `sampleHijackU` followed by `sampleHijackV`. -/
def sampleHijackContract : ContractDef :=
  ⟨"Foo", true, 9, 200, some [⟨["Initializable"]⟩], [], none, [],
    [sampleHijackU, sampleHijackV], "contract Foo is Initializable \x7b ... \x7d", ⟨0, 200⟩⟩

/-- The identifier from claim C3's odd-length edge condition: the first hash
of `"example.i"` starts with a zero nibble, so `(h1 - 1).toString(16)` has
63 hex digits. -/
def exampleOddId : String := "example.i"

/- helper lemmas -/

theorem vnv_foldl_acc (skip : Bool) (l : List StateVar) (a : List Diag × List NsVariable) :
    l.foldl (validateVariablesStep skip) a
      = (a.1 ++ (l.foldl (validateVariablesStep skip) ([], [])).1,
         a.2 ++ (l.foldl (validateVariablesStep skip) ([], [])).2) := by
  induction l generalizing a with
  | nil => simp
  | cons w t ih =>
    rw [List.foldl_cons, List.foldl_cons, ih (validateVariablesStep skip a w),
        ih (validateVariablesStep skip ([], []) w)]
    simp [validateVariablesStep, List.append_assoc]

theorem vnv_cons (skip : Bool) (v : StateVar) (t : List StateVar) :
    validateNamespaceableVariables skip (v :: t)
      = ((validateVariable skip v).1 ++ (validateNamespaceableVariables skip t).1,
         (validateVariable skip v).2 ++ (validateNamespaceableVariables skip t).2) := by
  rw [validateNamespaceableVariables, List.foldl_cons,
      vnv_foldl_acc skip t (validateVariablesStep skip ([], []) v)]
  simp [validateVariablesStep, validateNamespaceableVariables]

theorem vri_fst (v : StateVar) :
    (variableReplacementAndIgnore v).1 = hasConstantOrImmutable v := by
  unfold variableReplacementAndIgnore hasConstantOrImmutable
  have aux : ∀ (l : List VarAttr) (b : Bool) (s : String),
      (l.foldl (variableAttrStep v) (b, s)).1 = (b || l.any isConstOrImmAttr) := by
    intro l
    induction l with
    | nil => intro b s; simp
    | cons a t ih =>
      intro b s
      cases a <;> simp [variableAttrStep, isConstOrImmAttr, ih]
  rw [aux]
  simp

theorem ignored_variable (skip : Bool) (v : StateVar) (h : hasConstantOrImmutable v = true) :
    validateVariable skip v = ([], []) := by
  unfold validateVariable
  simp [vri_fst, h]

/-- C8: `constant`/`immutable` variables contribute no diagnostics and are
never appended to the eligible-variable list. -/
theorem constant_immutable_variables_excluded (skip : Bool) (vars : List StateVar) :
    validateNamespaceableVariables skip (vars.filter fun v => !hasConstantOrImmutable v)
      = validateNamespaceableVariables skip vars
  ∧ ∀ v : StateVar, hasConstantOrImmutable v = true → validateVariable skip v = ([], []) := by
  constructor
  · induction vars with
    | nil => rfl
    | cons v t ih =>
      rw [List.filter_cons]
      cases h : hasConstantOrImmutable v
      · simp only [h, Bool.not_false, if_pos]
        rw [vnv_cons, vnv_cons, ih]
      · simp only [h, Bool.not_true, Bool.false_eq_true, if_false]
        rw [vnv_cons, ignored_variable skip v h, ih]
        simp
  · intro v h
    exact ignored_variable skip v h

theorem constant_immutable_variables_excluded_witness :
    validateNamespaceableVariables false
        ([sampleVarX, sampleVarC].filter fun v => !hasConstantOrImmutable v)
      = validateNamespaceableVariables false [sampleVarX, sampleVarC]
  ∧ hasConstantOrImmutable sampleVarC = true
  ∧ validateVariable false sampleVarC = ([], []) :=
  ⟨(constant_immutable_variables_excluded false [sampleVarX, sampleVarC]).1,
   by decide,
   (constant_immutable_variables_excluded false [sampleVarX, sampleVarC]).2 sampleVarC (by decide)⟩

theorem authParamsEq (l : List FnParam) :
    (l.length == 1 && (l.headD ⟨""⟩).typeText == "address")
      = (l.length == 1 && l.all fun p => p.typeText == "address") := by
  cases l with
  | nil => rfl
  | cons p t =>
    cases t with
    | nil => simp
    | cons q r => simp [List.length_cons]

/-- C6: the upgradeability classifier returns true exactly when the contract
inherits a type named `Initializable` or `UUPSUpgradeable`, declares
`_authorizeUpgrade` with exactly one `address` parameter, or carries an
`@custom:oz-upgrades`/`@custom:oz-upgrades-from` documentation token. -/
theorem inferUpgradeable_iff_claim (c : ContractDef) :
    inferUpgradeable c =
      (inheritsTypeNamed c "Initializable" || inheritsTypeNamed c "UUPSUpgradeable" ||
        declaresAuthorizeUpgradeAddress c || docTokensIncludeUpgradeAnnot c) := by
  unfold inferUpgradeable inheritsTypeNamed declaresAuthorizeUpgradeAddress docTokensIncludeUpgradeAnnot
  simp only [authParamsEq]
  cases c.inheritance <;> cases c.natspec <;> rw [Bool.eq_iff_iff] <;> simp <;> aesop

theorem inferUpgradeable_iff_claim_witness :
    inferUpgradeable sampleBar =
      (inheritsTypeNamed sampleBar "Initializable" || inheritsTypeNamed sampleBar "UUPSUpgradeable" ||
        declaresAuthorizeUpgradeAddress sampleBar || docTokensIncludeUpgradeAnnot sampleBar) :=
  inferUpgradeable_iff_claim sampleBar

theorem listStartsWith_self (l : List Char) : listStartsWith l l = true := by
  induction l with
  | nil => rfl
  | cons c t ih => simp [listStartsWith, ih]

theorem listStartsWith_append (n : List Char) : ∀ (l t : List Char),
    listStartsWith l n = true → listStartsWith (l ++ t) n = true := by
  induction n with
  | nil => intro l t _; simp [listStartsWith]
  | cons nh nt ih =>
    intro l t h
    cases l with
    | nil => simp [listStartsWith] at h
    | cons lh lt =>
      simp only [listStartsWith, Bool.and_eq_true] at h
      simp only [List.cons_append, listStartsWith, Bool.and_eq_true]
      exact ⟨h.1, ih lt t h.2⟩

theorem charsContain_nil_needle (t : List Char) : charsContain [] t = true := by
  cases t <;> rfl

theorem charsContain_append_right (n : List Char) : ∀ (l t : List Char),
    charsContain n l = true → charsContain n (l ++ t) = true := by
  intro l
  induction l with
  | nil =>
    intro t h
    simp only [charsContain, List.isEmpty_iff] at h
    subst h
    exact charsContain_nil_needle t
  | cons c r ih =>
    intro t h
    simp only [charsContain, Bool.or_eq_true] at h
    rcases h with h | h
    · simp only [List.cons_append, charsContain, Bool.or_eq_true]
      exact Or.inl (listStartsWith_append n (c :: r) t h)
    · simp only [List.cons_append, charsContain, Bool.or_eq_true]
      exact Or.inr (ih t h)

theorem charsContain_append_left (n pre t : List Char) (h : charsContain n t = true) :
    charsContain n (pre ++ t) = true := by
  induction pre with
  | nil => exact h
  | cons c r ih =>
    simp only [List.cons_append, charsContain, Bool.or_eq_true]
    exact Or.inr ih

theorem charsContain_self (n : List Char) : charsContain n n = true := by
  cases n with
  | nil => rfl
  | cons c t => simp [charsContain, listStartsWith_self]

theorem jsIncludes_middle (pre mid post needle : String) (h : jsIncludes mid needle = true) :
    jsIncludes (pre ++ mid ++ post) needle = true := by
  unfold jsIncludes at *
  rw [String.data_append, String.data_append, List.append_assoc]
  exact charsContain_append_left _ _ _ (charsContain_append_right _ _ _ h)

theorem jsIncludes_self (s : String) : jsIncludes s s = true :=
  charsContain_self s.data

/-- C9: the accessor insertion is skipped whenever the exact accessor line
already occurs in the unparsed body; in particular it is skipped on any body
that already contains the text a previous application inserted. -/
theorem storage_getter_insertion_idempotent (contractName pre post indent : String)
    (r : SrcRange) (edits : List TextEdit) :
    addStorageGetter contractName (pre ++ storageGetterInsertText contractName indent ++ post)
        r edits indent = edits
  ∧ ∀ body, jsIncludes body (storageGetterLine contractName) = true →
      addStorageGetter contractName body r edits indent = edits := by
  have skipOnLine : ∀ body, jsIncludes body (storageGetterLine contractName) = true →
      addStorageGetter contractName body r edits indent = edits := by
    intro body hb
    unfold addStorageGetter
    simp [hb]
  constructor
  · apply skipOnLine
    apply jsIncludes_middle
    unfold storageGetterInsertText jsIncludes
    rw [String.data_append, String.data_append, String.data_append, String.data_append]
    simp only [List.append_assoc]
    apply charsContain_append_left
    apply charsContain_append_left
    apply charsContain_append_left
    exact charsContain_append_right _ _ _ (charsContain_self _)
  · exact skipOnLine

theorem storage_getter_insertion_idempotent_witness :
    addStorageGetter "Foo"
        ("if (x) " ++ storageGetterInsertText "Foo" "    " ++ " return; \x7d") ⟨0, 1⟩ [] "    " = []
  ∧ jsIncludes "\x7b\n        FooStorage storage $ = _getFooStorage();\n    \x7d"
        (storageGetterLine "Foo") = true
  ∧ addStorageGetter "Foo" "\x7b\n        FooStorage storage $ = _getFooStorage();\n    \x7d"
        ⟨0, 1⟩ [] "    " = [] :=
  ⟨(storage_getter_insertion_idempotent "Foo" "if (x) " " return; \x7d" "    " ⟨0, 1⟩ []).1,
   by decide,
   (storage_getter_insertion_idempotent "Foo" "" "" "    " ⟨0, 1⟩ []).2
     "\x7b\n        FooStorage storage $ = _getFooStorage();\n    \x7d" (by decide)⟩

/-- C4 fails on the code: the existing-namespace move-all fix with two
variables emits two edits that both replace the same closing-brace range. -/
theorem moveall_existing_namespace_overlapping_edits :
    ((getMoveAllVariablesToNamespaceQuickFix [sampleQfFoo] "Move all variables to namespace"
        "p" "Foo" [sampleVarA, sampleVarB]).map fun a => pairwiseDisjoint a.edits) = some false
  ∧ ((getMoveAllVariablesToNamespaceQuickFix [sampleQfFoo] "Move all variables to namespace"
        "p" "Foo" [sampleVarA, sampleVarB]).map fun a => a.edits.map TextEdit.range)
      = some [⟨10, 20⟩, ⟨100, 101⟩, ⟨30, 40⟩, ⟨100, 101⟩]
  ∧ rangesIntersect ⟨100, 101⟩ ⟨100, 101⟩ = true := by
  refine ⟨by decide, by decide, by decide⟩

/-- C5 fails on the code: the single `try/catch` around the diagnostic loop
means a payload-less first diagnostic aborts assembly, losing the sibling's
fix even though that fix assembles fine on its own. -/
theorem codeaction_loop_aborts_on_sibling_failure :
    getCodeActions [] "p" [sampleBadDiag, sampleGoodDiag] = []
  ∧ assembleFix [] "p" sampleGoodDiag
      = Except.ok (some ⟨"Replace namespace id", [⟨⟨2, 3⟩, "X"⟩]⟩)
  ∧ getCodeActions [] "p" [sampleGoodDiag]
      = [⟨"Replace namespace id", [⟨⟨2, 3⟩, "X"⟩]⟩] :=
  ⟨rfl, rfl, rfl⟩

/-- C1's scenario refuted: on contract `Foo` (classifier false, one plain
state variable) the engine emits no per-variable informational diagnostic
and does emit a `ContractCanBeNamespaced` diagnostic. -/
theorem foo_scenario_counterexample :
    inferUpgradeable sampleFoo = false
  ∧ countCode (analyzeContract "p" sampleFoo) VARIABLE_CAN_BE_NAMESPACED = 0
  ∧ countCode (analyzeContract "p" sampleFoo) CONTRACT_CAN_BE_NAMESPACED = 1 := by
  refine ⟨by decide, by decide, by decide⟩

/-- C3 fails on the code for identifiers whose first hash starts with a zero
nibble: `(h1 - 1).toString(16)` then has odd length and Node's
`Buffer.from(hex, 'hex')` drops the trailing lone nibble, so the buffer
passed to the second hash (31 bytes) is not the minimal big-endian encoding
of `h1 - 1` (32 bytes). -/
theorem oddlength_minusone_buffer_mismatch :
    minusOneBufferOf exampleOddId
      ≠ specMinimalBigEndian (bytesToNatBE (keccak256 (utf8Bytes exampleOddId)) - 1)
  ∧ (minusOneBufferOf exampleOddId).length = 31
  ∧ (specMinimalBigEndian (bytesToNatBE (keccak256 (utf8Bytes exampleOddId)) - 1)).length = 32 := by
  refine ⟨by decide, by decide, by decide⟩

theorem countCode_append (a b : List Diag) (code : String) :
    countCode (a ++ b) code = countCode a code + countCode b code := by
  simp [countCode, List.filter_append]

theorem countCode_zero (ds : List Diag) (code : String) (h : ∀ d ∈ ds, d.code ≠ code) :
    countCode ds code = 0 := by
  unfold countCode
  rw [List.length_eq_zero, List.filter_eq_nil_iff]
  intro d hd
  simp [h d hd]

theorem validateVariable_fst_cases (skip : Bool) (v : StateVar) :
    (validateVariable skip v).1 = [] ∨
      (validateVariable skip v).1
        = [⟨2, v.range, "Variable has initial value", VARIABLE_HAS_INITIAL_VALUE, none⟩] ∨
      (validateVariable skip v).1
        = [⟨3, v.range, "Variable can be namespaced.", VARIABLE_CAN_BE_NAMESPACED, none⟩] := by
  unfold validateVariable
  by_cases h : (variableReplacementAndIgnore v).1 = true <;> cases v.value <;> cases skip <;>
    simp [h]

theorem validateVariable_snd_indep (skip : Bool) (v : StateVar) :
    (validateVariable skip v).2 = (validateVariable true v).2 := by
  unfold validateVariable
  by_cases h : (variableReplacementAndIgnore v).1 = true <;> cases v.value <;> cases skip <;>
    simp [h]

theorem validateVars_fst_skip (vars : List StateVar) :
    (validateNamespaceableVariables true vars).1 = [] := by
  induction vars with
  | nil => rfl
  | cons v t ih =>
    rw [vnv_cons, ih]
    have h : (validateVariable true v).1 = [] := by
      unfold validateVariable
      by_cases h : (variableReplacementAndIgnore v).1 = true <;> cases v.value <;> simp [h]
    rw [h]
    rfl

theorem validateVars_snd_indep (skip : Bool) (vars : List StateVar) :
    (validateNamespaceableVariables skip vars).2 = (validateNamespaceableVariables true vars).2 := by
  induction vars with
  | nil => rfl
  | cons v t ih => rw [vnv_cons, vnv_cons, ih, validateVariable_snd_indep]

theorem varDiags_codes (skip : Bool) (vars : List StateVar) :
    ∀ d ∈ (validateNamespaceableVariables skip vars).1,
      d.code = VARIABLE_HAS_INITIAL_VALUE ∨ d.code = VARIABLE_CAN_BE_NAMESPACED := by
  induction vars with
  | nil => intro d hd; simp [validateNamespaceableVariables] at hd
  | cons v t ih =>
    intro d hd
    rw [vnv_cons, List.mem_append] at hd
    rcases hd with hd | hd
    · rcases validateVariable_fst_cases skip v with h | h | h <;> rw [h] at hd <;>
        simp at hd <;> simp [hd]
    · exact ih d hd

theorem varDiags_can_count (vars : List StateVar) :
    countCode (validateNamespaceableVariables false vars).1 VARIABLE_CAN_BE_NAMESPACED
      = (validateNamespaceableVariables false vars).2.length := by
  induction vars with
  | nil => rfl
  | cons v t ih =>
    rw [vnv_cons, countCode_append, List.length_append, ih]
    congr 1
    unfold validateVariable
    by_cases h : (variableReplacementAndIgnore v).1 = true <;> cases v.value <;>
      simp [h, countCode, VARIABLE_HAS_INITIAL_VALUE, VARIABLE_CAN_BE_NAMESPACED]

theorem contract_diag_codes (c : ContractDef) (vars : List NsVariable) :
    ∀ d ∈ validateNamespaceableContract c vars, d.code = CONTRACT_CAN_BE_NAMESPACED := by
  intro d hd
  unfold validateNamespaceableContract at hd
  split at hd
  · simp at hd
    simp [hd]
  · simp at hd

theorem hashCommentCheck_diag_codes (p cn : String) (v : StateVar) :
    ∀ d ∈ (hashCommentCheck p cn v).2.2, d.code = NAMESPACE_ID_MISMATCH_HASH_COMMENT := by
  intro d hd
  unfold hashCommentCheck at hd
  split at hd
  · simp at hd
  · split at hd
    · simp at hd
    · dsimp only [] at hd
      split at hd
      · simp at hd
      · simp at hd
        simp [hd]

theorem hashValueCheck_diag_codes (p cn text : String) (rng : SrcRange) (ehc : Option String)
    (b : Bool) :
    ∀ d ∈ hashValueCheck p cn text rng ehc b,
      d.code = NAMESPACE_HASH_MISMATCH ∨ d.code = NAMESPACE_STANDALONE_HASH_MISMATCH := by
  intro d hd
  unfold hashValueCheck at hd
  simp only [List.mem_append] at hd
  rcases hd with hd | hd
  · split at hd
    · split at hd
      · simp at hd
        simp [hd]
      · simp at hd
    · simp at hd
  · split at hd
    · simp at hd
      simp [hd]
    · simp at hd

theorem hashLoop_diag_codes (p cn ct : String) (crng : SrcRange) :
    ∀ (fuel : Nat) (vars : List StateVar) (d : Diag),
      d ∈ validateNamespaceCommentAndHashLoop p cn ct crng fuel vars →
      d.code = NAMESPACE_ID_MISMATCH_HASH_COMMENT ∨ d.code = NAMESPACE_HASH_MISMATCH ∨
        d.code = NAMESPACE_STANDALONE_HASH_MISMATCH := by
  intro fuel
  induction fuel with
  | zero =>
    intro vars d hd
    simp [validateNamespaceCommentAndHashLoop] at hd
  | succ f ih =>
    intro vars d hd
    cases vars with
    | nil => simp [validateNamespaceCommentAndHashLoop] at hd
    | cons v rest =>
      rw [validateNamespaceCommentAndHashLoop] at hd
      by_cases hs : endsWithStorageSuffix v.name = true
      · rw [if_pos hs] at hd
        cases ht : hashSuffixTarget (v :: rest) with
        | some tr =>
          obtain ⟨txt, rng2, rest2⟩ := tr
          rw [ht] at hd
          dsimp only [] at hd
          simp only [List.mem_append] at hd
          rcases hd with (hd | hd) | hd
          · exact Or.inl (hashCommentCheck_diag_codes p cn v d hd)
          · exact Or.inr (hashValueCheck_diag_codes p cn txt rng2 _ _ d hd)
          · exact ih rest2 d hd
        | none =>
          rw [ht] at hd
          dsimp only [] at hd
          simp only [List.mem_append] at hd
          rcases hd with hd | hd
          · exact Or.inl (hashCommentCheck_diag_codes p cn v d hd)
          · exact Or.inr (hashValueCheck_diag_codes p cn ct crng _ _ d hd)
      · rw [if_neg hs] at hd
        simp only [List.mem_append] at hd
        rcases hd with hd | hd
        · exact Or.inl (hashCommentCheck_diag_codes p cn v d hd)
        · exact ih rest d hd

theorem structAnn_diag_codes (p : String) (c : ContractDef) :
    ∀ d ∈ validateStructAnnotationRule p c, d.code = NAMESPACE_ID_MISMATCH := by
  intro d hd
  unfold validateStructAnnotationRule at hd
  rw [List.mem_flatMap] at hd
  obtain ⟨st, _, hd⟩ := hd
  split at hd
  · simp at hd
  · split at hd
    · simp at hd
    · dsimp only [] at hd
      split at hd
      · simp at hd
      · simp at hd
        simp [hd]

theorem gated_diag_codes (p : String) (c : ContractDef) :
    ∀ d ∈ validateStructAnnotationRule p c ++ validateNamespaceCommentAndHash p c,
      d.code = NAMESPACE_ID_MISMATCH ∨ d.code = NAMESPACE_ID_MISMATCH_HASH_COMMENT ∨
        d.code = NAMESPACE_HASH_MISMATCH ∨ d.code = NAMESPACE_STANDALONE_HASH_MISMATCH := by
  intro d hd
  rw [List.mem_append] at hd
  rcases hd with hd | hd
  · exact Or.inl (structAnn_diag_codes p c d hd)
  · unfold validateNamespaceCommentAndHash at hd
    exact Or.inr (hashLoop_diag_codes p c.name c.unparseText c.trimmedRange _ _ d hd)

theorem payloadsOfCode_append (a b : List Diag) (code : String) :
    payloadsOfCode (a ++ b) code = payloadsOfCode a code ++ payloadsOfCode b code := by
  simp [payloadsOfCode, List.filterMap_append]

theorem payloadsOfCode_nil_of (ds : List Diag) (code : String) (h : ∀ d ∈ ds, d.code ≠ code) :
    payloadsOfCode ds code = [] := by
  unfold payloadsOfCode
  rw [List.filterMap_eq_nil_iff]
  intro d hd
  simp [h d hd]

theorem contract_diag_of_nonempty (c : ContractDef) (vars : List NsVariable) (h : vars ≠ []) :
    validateNamespaceableContract c vars
      = [⟨4, ⟨c.identStart, c.defEnd⟩, "Contract can be namespaced.", CONTRACT_CAN_BE_NAMESPACED,
          some (DiagPayload.contractPayload ⟨c.name, vars⟩)⟩] := by
  unfold validateNamespaceableContract
  have hl : vars.length > 0 := List.length_pos.mpr h
  simp [hl]

/-- C1 corrected: for non-upgradeable-classified contracts the per-variable
informational/warning diagnostics are suppressed while the eligible
variables are still accumulated and a `ContractCanBeNamespaced` diagnostic
is emitted when at least one variable is eligible; for upgradeable-classified
contracts one per-variable informational diagnostic is emitted per eligible
variable. -/
theorem variable_diagnostics_gating (p : String) (c : ContractDef) (hv : c.isValid = true) :
    (inferUpgradeable c = false →
        countCode (analyzeContract p c) VARIABLE_CAN_BE_NAMESPACED = 0
      ∧ countCode (analyzeContract p c) VARIABLE_HAS_INITIAL_VALUE = 0
      ∧ countCode (analyzeContract p c) CONTRACT_CAN_BE_NAMESPACED
          = (if eligibleVariables c = [] then 0 else 1))
  ∧ (inferUpgradeable c = true →
      countCode (analyzeContract p c) VARIABLE_CAN_BE_NAMESPACED
        = (eligibleVariables c).length) := by
  constructor
  · intro hu
    have hana : analyzeContract p c
        = validateNamespaceableContract c (validateNamespaceableVariables true c.stateVars).2 := by
      unfold analyzeContract
      rw [hv, hu]
      simp [validateVars_fst_skip]
    rw [hana]
    refine ⟨?_, ?_, ?_⟩
    · refine countCode_zero _ _ fun d hd => ?_
      rw [contract_diag_codes c _ d hd]
      decide
    · refine countCode_zero _ _ fun d hd => ?_
      rw [contract_diag_codes c _ d hd]
      decide
    · by_cases he : (validateNamespaceableVariables true c.stateVars).2 = []
      · have hel : eligibleVariables c = [] := he
        rw [he, hel]
        simp [validateNamespaceableContract, countCode]
      · have hel : ¬(eligibleVariables c = []) := he
        rw [contract_diag_of_nonempty c _ he]
        simp [hel, countCode, CONTRACT_CAN_BE_NAMESPACED]
  · intro hu
    have hana : analyzeContract p c
        = (validateStructAnnotationRule p c ++ validateNamespaceCommentAndHash p c)
            ++ (validateNamespaceableVariables false c.stateVars).1
            ++ validateNamespaceableContract c (validateNamespaceableVariables false c.stateVars).2 := by
      unfold analyzeContract
      rw [hv, hu]
      simp
    rw [hana, countCode_append, countCode_append]
    have h1 : countCode (validateStructAnnotationRule p c ++ validateNamespaceCommentAndHash p c)
        VARIABLE_CAN_BE_NAMESPACED = 0 := by
      refine countCode_zero _ _ fun d hd => ?_
      rcases gated_diag_codes p c d hd with h | h | h | h <;> rw [h] <;> decide
    have h3 : countCode
        (validateNamespaceableContract c (validateNamespaceableVariables false c.stateVars).2)
        VARIABLE_CAN_BE_NAMESPACED = 0 := by
      refine countCode_zero _ _ fun d hd => ?_
      rw [contract_diag_codes c _ d hd]
      decide
    rw [h1, h3, varDiags_can_count]
    have : eligibleVariables c = (validateNamespaceableVariables false c.stateVars).2 :=
      (validateVars_snd_indep false c.stateVars).symm
    rw [this]
    omega

theorem variable_diagnostics_gating_witness :
    (countCode (analyzeContract "p" sampleFoo) VARIABLE_CAN_BE_NAMESPACED = 0
   ∧ countCode (analyzeContract "p" sampleFoo) VARIABLE_HAS_INITIAL_VALUE = 0
   ∧ countCode (analyzeContract "p" sampleFoo) CONTRACT_CAN_BE_NAMESPACED
       = (if eligibleVariables sampleFoo = [] then 0 else 1))
  ∧ countCode (analyzeContract "p" sampleBar) VARIABLE_CAN_BE_NAMESPACED
      = (eligibleVariables sampleBar).length :=
  ⟨(variable_diagnostics_gating "p" sampleFoo rfl).1 rfl,
   (variable_diagnostics_gating "p" sampleBar rfl).2 rfl⟩

/-- C7: every upgradeable-classified contract that ends the pass with a
non-empty eligible-variable list gets exactly one `ContractCanBeNamespaced`
diagnostic, whose payload is the contract name with the ordered eligible
variables. -/
theorem upgradeable_contract_single_namespaceable_diag (p : String) (c : ContractDef)
    (hv : c.isValid = true) (hu : inferUpgradeable c = true)
    (he : eligibleVariables c ≠ []) :
    countCode (analyzeContract p c) CONTRACT_CAN_BE_NAMESPACED = 1
  ∧ payloadsOfCode (analyzeContract p c) CONTRACT_CAN_BE_NAMESPACED
      = [DiagPayload.contractPayload ⟨c.name, eligibleVariables c⟩] := by
  have hsnd : (validateNamespaceableVariables false c.stateVars).2 = eligibleVariables c :=
    validateVars_snd_indep false c.stateVars
  have he' : (validateNamespaceableVariables false c.stateVars).2 ≠ [] := by
    rw [hsnd]; exact he
  have hana : analyzeContract p c
      = (validateStructAnnotationRule p c ++ validateNamespaceCommentAndHash p c)
          ++ (validateNamespaceableVariables false c.stateVars).1
          ++ validateNamespaceableContract c (validateNamespaceableVariables false c.stateVars).2 := by
    unfold analyzeContract
    rw [hv, hu]
    simp
  have hgz : ∀ d ∈ validateStructAnnotationRule p c ++ validateNamespaceCommentAndHash p c,
      d.code ≠ CONTRACT_CAN_BE_NAMESPACED := fun d hd => by
    rcases gated_diag_codes p c d hd with h | h | h | h <;> rw [h] <;> decide
  have hvz : ∀ d ∈ (validateNamespaceableVariables false c.stateVars).1,
      d.code ≠ CONTRACT_CAN_BE_NAMESPACED := fun d hd => by
    rcases varDiags_codes false c.stateVars d hd with h | h <;> rw [h] <;> decide
  rw [hana, contract_diag_of_nonempty c _ he', hsnd]
  constructor
  · rw [countCode_append, countCode_append, countCode_zero _ _ hgz, countCode_zero _ _ hvz]
    simp [countCode, CONTRACT_CAN_BE_NAMESPACED]
  · rw [payloadsOfCode_append, payloadsOfCode_append, payloadsOfCode_nil_of _ _ hgz,
        payloadsOfCode_nil_of _ _ hvz]
    simp [payloadsOfCode, CONTRACT_CAN_BE_NAMESPACED]

theorem upgradeable_contract_single_namespaceable_diag_witness :
    countCode (analyzeContract "p" sampleBar) CONTRACT_CAN_BE_NAMESPACED = 1
  ∧ payloadsOfCode (analyzeContract "p" sampleBar) CONTRACT_CAN_BE_NAMESPACED
      = [DiagPayload.contractPayload ⟨sampleBar.name, eligibleVariables sampleBar⟩] :=
  upgradeable_contract_single_namespaceable_diag "p" sampleBar rfl rfl (by decide)

theorem hashCommentCheck_correlation (p cn : String) (v : StateVar) :
    (hashCommentCheck p cn v).2.1 = false →
      ∀ s, (hashCommentCheck p cn v).1 = some s →
        s = calculateERC7201StorageLocation (getNamespaceId (some p) cn) := by
  unfold hashCommentCheck
  split
  · intro _ s hs
    simp at hs
  · split
    · intro _ s hs
      simp at hs
    · dsimp only []
      split
      · intro _ s hs
        simp at hs
        rw [← hs]
        rename_i hcond hflag
        rw [hcond]
      · intro hfalse
        simp at hfalse

theorem hashValueCheck_count_le (p cn text : String) (rng : SrcRange) (ehc : Option String)
    (b : Bool)
    (hcorr : b = false → ∀ s, ehc = some s →
      s = calculateERC7201StorageLocation (getNamespaceId (some p) cn)) :
    countCode (hashValueCheck p cn text rng ehc b) NAMESPACE_HASH_MISMATCH
      + countCode (hashValueCheck p cn text rng ehc b) NAMESPACE_STANDALONE_HASH_MISMATCH ≤ 1 := by
  unfold hashValueCheck
  dsimp only []
  cases b with
  | true =>
    cases ehc with
    | none => simp [countCode, hashNeOpt]
    | some s =>
      by_cases hi : jsIncludes text s = true <;>
        simp [hi, countCode, NAMESPACE_HASH_MISMATCH, NAMESPACE_STANDALONE_HASH_MISMATCH]
  | false =>
    cases ehc with
    | none =>
      by_cases hi : jsIncludes text
          (calculateERC7201StorageLocation (getNamespaceId (some p) cn)) = true <;>
        simp [hi, countCode, hashNeOpt, NAMESPACE_HASH_MISMATCH,
          NAMESPACE_STANDALONE_HASH_MISMATCH]
    | some s =>
      have hse : s = calculateERC7201StorageLocation (getNamespaceId (some p) cn) :=
        hcorr rfl s rfl
      have hne : hashNeOpt (calculateERC7201StorageLocation (getNamespaceId (some p) cn))
          (some s) = false := by
        simp [hashNeOpt, hse]
      rw [hne]
      by_cases hi : jsIncludes text s = true <;>
        simp [hi, countCode, NAMESPACE_HASH_MISMATCH, NAMESPACE_STANDALONE_HASH_MISMATCH]

theorem hashCommentCheck_count_zero (p cn : String) (v : StateVar) (code : String)
    (hcode : code = NAMESPACE_HASH_MISMATCH ∨ code = NAMESPACE_STANDALONE_HASH_MISMATCH) :
    countCode (hashCommentCheck p cn v).2.2 code = 0 := by
  refine countCode_zero _ _ fun d hd => ?_
  rw [hashCommentCheck_diag_codes p cn v d hd]
  rcases hcode with h | h <;> rw [h] <;> decide

theorem hashSuffixTarget_shorter : ∀ (l l2 : List StateVar) (txt : String) (rng : SrcRange),
    hashSuffixTarget l = some (txt, rng, l2) → l2.length < l.length := by
  intro l
  induction l with
  | nil =>
    intro l2 txt rng h
    simp [hashSuffixTarget] at h
  | cons v rest ih =>
    intro l2 txt rng h
    rw [hashSuffixTarget] at h
    cases hv : v.value with
    | some t =>
      rw [hv] at h
      simp only [Option.some.injEq, Prod.mk.injEq] at h
      rw [← h.2.2, List.length_cons]
      omega
    | none =>
      rw [hv] at h
      have := ih l2 txt rng h
      rw [List.length_cons]
      omega

theorem hashLoop_count_le (p cn ct : String) (crng : SrcRange) :
    ∀ (fuel : Nat) (vars : List StateVar),
      countCode (validateNamespaceCommentAndHashLoop p cn ct crng fuel vars)
          NAMESPACE_HASH_MISMATCH
        + countCode (validateNamespaceCommentAndHashLoop p cn ct crng fuel vars)
            NAMESPACE_STANDALONE_HASH_MISMATCH ≤ vars.length := by
  intro fuel
  induction fuel with
  | zero =>
    intro vars
    simp [validateNamespaceCommentAndHashLoop, countCode]
  | succ f ih =>
    intro vars
    cases vars with
    | nil => simp [validateNamespaceCommentAndHashLoop, countCode]
    | cons v rest =>
      rw [validateNamespaceCommentAndHashLoop]
      have h1 := hashCommentCheck_count_zero p cn v NAMESPACE_HASH_MISMATCH (Or.inl rfl)
      have h2 := hashCommentCheck_count_zero p cn v NAMESPACE_STANDALONE_HASH_MISMATCH (Or.inr rfl)
      by_cases hs : endsWithStorageSuffix v.name = true
      · rw [if_pos hs]
        cases ht : hashSuffixTarget (v :: rest) with
        | some tr =>
          obtain ⟨txt, rng2, rest2⟩ := tr
          dsimp only []
          rw [countCode_append, countCode_append, countCode_append, countCode_append]
          have h3 := hashValueCheck_count_le p cn txt rng2 (hashCommentCheck p cn v).1
            (hashCommentCheck p cn v).2.1 (hashCommentCheck_correlation p cn v)
          have h4 := ih rest2
          have h5 := hashSuffixTarget_shorter (v :: rest) rest2 txt rng2 ht
          rw [List.length_cons] at h5 ⊢
          omega
        | none =>
          dsimp only []
          rw [countCode_append, countCode_append]
          have h3 := hashValueCheck_count_le p cn ct crng (hashCommentCheck p cn v).1
            (hashCommentCheck p cn v).2.1 (hashCommentCheck_correlation p cn v)
          rw [List.length_cons]
          omega
      · rw [if_neg hs]
        rw [countCode_append, countCode_append]
        have h4 := ih rest
        rw [List.length_cons]
        omega

theorem hashCommentCheck_of_no_match (p cn : String) (v : StateVar)
    (h : hasMatchingFormulaComment v = false) :
    hashCommentCheck p cn v = (none, false, []) := by
  unfold hashCommentCheck
  unfold hasMatchingFormulaComment at h
  cases hpc : v.precedingComment with
  | none => rfl
  | some com =>
    rw [hpc] at h
    dsimp only [] at h ⊢
    cases hmid : com.matchId with
    | none => rfl
    | some mid =>
      rw [hmid] at h
      simp at h

/-- C10 refuted on the code: in `sampleHijackContract` the valueless
suffix-named first variable's iteration consumes the SECOND variable's
initializer expression (and skips that variable's iteration), so for the
second variable — suffix-named, with no matching preceding comment, and an
initializer lacking the expected-identifier hash — no
`NamespaceStandaloneHashMismatch` is emitted anywhere in the pass, while a
`NamespaceHashMismatch` diagnostic IS emitted at that variable's
initializer range. -/
theorem hash_mismatch_misattribution_counterexample :
    endsWithStorageSuffix sampleHijackV.name = true
  ∧ hasMatchingFormulaComment sampleHijackV = false
  ∧ sampleHijackV.value = some "0x1234"
  ∧ jsIncludes "0x1234"
      (calculateERC7201StorageLocation (getNamespaceId (some "p") "Foo")) = false
  ∧ countCode (validateNamespaceCommentAndHash "p" sampleHijackContract)
      NAMESPACE_STANDALONE_HASH_MISMATCH = 0
  ∧ ((validateNamespaceCommentAndHash "p" sampleHijackContract).filter
        (fun d => d.code == NAMESPACE_HASH_MISMATCH)).map Diag.range
      = [sampleHijackV.exprRange] := by
  refine ⟨by decide, by decide, by decide, by decide, by decide, by decide⟩

/-- C10 corrected: the per-variable hash-check guarantees hold for the
iteration that processes the variable itself.  When the loop reaches a
suffix-named variable with no matching formula comment and an initializer
of its own, that iteration emits `NamespaceStandaloneHashMismatch` at the
initializer's trimmed range exactly when the initializer text lacks the
expected-identifier hash and emits no `NamespaceHashMismatch`; and every
pass emits at most one hash-mismatch diagnostic per loop iteration, hence
at most `stateVars.length` in total.  (Per-source-variable attribution
fails: an earlier suffix-named variable without an initializer consumes
this variable's initializer and skips its iteration, as the counterexample
shows.) -/
theorem hash_checks_per_iteration :
    (∀ (p : String) (c : ContractDef) (v : StateVar) (rest : List StateVar) (txt : String),
        c.stateVars = v :: rest →
        hasMatchingFormulaComment v = false →
        endsWithStorageSuffix v.name = true →
        v.value = some txt →
        validateNamespaceCommentAndHash p c
          = (if jsIncludes txt (calculateERC7201StorageLocation (getNamespaceId (some p) c.name))
             then []
             else [⟨2, v.exprRange,
                    "ERC7201 storage location hash does not match expected namespace id",
                    NAMESPACE_STANDALONE_HASH_MISMATCH,
                    some (DiagPayload.replacementPayload
                      (calculateERC7201StorageLocation (getNamespaceId (some p) c.name)))⟩])
            ++ validateNamespaceCommentAndHashLoop p c.name c.unparseText c.trimmedRange
                rest.length rest)
  ∧ ∀ (p : String) (c : ContractDef),
      countCode (validateNamespaceCommentAndHash p c) NAMESPACE_HASH_MISMATCH
        + countCode (validateNamespaceCommentAndHash p c) NAMESPACE_STANDALONE_HASH_MISMATCH
        ≤ c.stateVars.length := by
  constructor
  · intro p c v rest txt hvars hcm hs hval
    have hcr : hashCommentCheck p c.name v = (none, false, []) :=
      hashCommentCheck_of_no_match p c.name v hcm
    have hval2 : hashValueCheck p c.name txt v.exprRange none false
        = if jsIncludes txt (calculateERC7201StorageLocation (getNamespaceId (some p) c.name))
          then []
          else [⟨2, v.exprRange,
                 "ERC7201 storage location hash does not match expected namespace id",
                 NAMESPACE_STANDALONE_HASH_MISMATCH,
                 some (DiagPayload.replacementPayload
                   (calculateERC7201StorageLocation (getNamespaceId (some p) c.name)))⟩] := by
      unfold hashValueCheck
      dsimp only []
      by_cases hi : jsIncludes txt
          (calculateERC7201StorageLocation (getNamespaceId (some p) c.name)) = true
      · simp [hi, hashNeOpt]
      · have hif : jsIncludes txt
            (calculateERC7201StorageLocation (getNamespaceId (some p) c.name)) = false := by
          cases hx : jsIncludes txt
              (calculateERC7201StorageLocation (getNamespaceId (some p) c.name))
          · rfl
          · exact absurd hx hi
        simp [hif, hashNeOpt]
    unfold validateNamespaceCommentAndHash
    rw [hvars, List.length_cons, validateNamespaceCommentAndHashLoop]
    rw [hcr]
    dsimp only []
    rw [if_pos hs, hashSuffixTarget, hval]
    dsimp only []
    rw [hval2]
    simp
  · intro p c
    unfold validateNamespaceCommentAndHash
    exact hashLoop_count_le p c.name c.unparseText c.trimmedRange c.stateVars.length c.stateVars

theorem hash_checks_per_iteration_witness :
    validateNamespaceCommentAndHash "p" sampleLocContract
      = (if jsIncludes "0x00"
            (calculateERC7201StorageLocation (getNamespaceId (some "p") sampleLocContract.name))
         then []
         else [⟨2, sampleLocVar.exprRange,
                "ERC7201 storage location hash does not match expected namespace id",
                NAMESPACE_STANDALONE_HASH_MISMATCH,
                some (DiagPayload.replacementPayload
                  (calculateERC7201StorageLocation
                    (getNamespaceId (some "p") sampleLocContract.name)))⟩])
        ++ validateNamespaceCommentAndHashLoop "p" sampleLocContract.name
            sampleLocContract.unparseText sampleLocContract.trimmedRange 0 []
  ∧ countCode (validateNamespaceCommentAndHash "p" sampleLocContract) NAMESPACE_HASH_MISMATCH
      + countCode (validateNamespaceCommentAndHash "p" sampleLocContract)
          NAMESPACE_STANDALONE_HASH_MISMATCH
      ≤ sampleLocContract.stateVars.length :=
  ⟨hash_checks_per_iteration.1 "p" sampleLocContract sampleLocVar [] "0x00" rfl (by decide)
      (by decide) rfl,
   hash_checks_per_iteration.2 "p" sampleLocContract⟩

theorem keccak256_length (msg : List Nat) : (keccak256 msg).length = 32 := by
  simp [keccak256]

theorem keccak256_bytes_lt (msg : List Nat) : ∀ b ∈ keccak256 msg, b < 256 := by
  intro b hb
  unfold keccak256 at hb
  simp only [List.mem_map] at hb
  obtain ⟨i, _, hb⟩ := hb
  rw [← hb]
  exact Nat.lt_succ_of_le Nat.and_le_right

theorem bytesToNatBE_foldl_lt : ∀ (l : List Nat) (acc : Nat), (∀ b ∈ l, b < 256) →
    l.foldl (fun a b => a * 256 + b) acc < (acc + 1) * 256 ^ l.length := by
  intro l
  induction l with
  | nil =>
    intro acc _
    simpa using Nat.lt_succ_self acc
  | cons b t ih =>
    intro acc h
    rw [List.foldl_cons, List.length_cons]
    have hb : b < 256 := h b (List.mem_cons_self b t)
    have ht : ∀ x ∈ t, x < 256 := fun x hx => h x (List.mem_cons_of_mem b hx)
    calc t.foldl (fun a b => a * 256 + b) (acc * 256 + b)
        < (acc * 256 + b + 1) * 256 ^ t.length := ih _ ht
      _ ≤ ((acc + 1) * 256) * 256 ^ t.length := by
          have hstep : acc * 256 + b + 1 ≤ (acc + 1) * 256 := by omega
          exact Nat.mul_le_mul_right _ hstep
      _ = (acc + 1) * 256 ^ (t.length + 1) := by ring

theorem bytesToNatBE_lt (l : List Nat) (h : ∀ b ∈ l, b < 256) :
    bytesToNatBE l < 256 ^ l.length := by
  have := bytesToNatBE_foldl_lt l 0 h
  simpa [bytesToNatBE] using this

theorem natToHexAux_length : ∀ (fuel n k : Nat) (acc : List Char), n < 16 ^ k →
    (natToHexAux fuel n acc).length ≤ k + acc.length := by
  intro fuel
  induction fuel with
  | zero =>
    intro n k acc _
    exact Nat.le_add_left _ _
  | succ f ih =>
    intro n k acc hn
    rw [natToHexAux]
    by_cases h0 : n = 0
    · rw [if_pos h0]
      exact Nat.le_add_left _ _
    · rw [if_neg h0]
      cases k with
      | zero =>
        simp at hn
        omega
      | succ k =>
        have hdiv : n / 16 < 16 ^ k := by
          rw [Nat.div_lt_iff_lt_mul (by norm_num : (0 : Nat) < 16)]
          calc n < 16 ^ (k + 1) := hn
            _ = 16 ^ k * 16 := by ring
        have := ih (n / 16) k (hexDigitChar (n % 16) :: acc) hdiv
        simp only [List.length_cons] at this
        omega

theorem natToHexString_length_le (n : Nat) (h : n < 16 ^ 64) :
    (natToHexString n).data.length ≤ 64 := by
  unfold natToHexString
  by_cases h0 : n = 0
  · rw [if_pos h0]
    decide
  · rw [if_neg h0]
    have := natToHexAux_length n n 64 [] h
    simpa using this

theorem hexDigitChar_mem (m : Nat) : hexDigitChar m ∈ lowerHexDigits := by
  unfold hexDigitChar
  rcases Nat.lt_or_ge m 16 with h | h
  · interval_cases m <;> decide
  · have hd : lowerHexDigits.getD m '0' = '0' :=
      List.getD_eq_default _ _ (by simpa [lowerHexDigits] using h)
    rw [hd]
    decide

theorem natToHexAux_chars : ∀ (fuel n : Nat) (acc : List Char),
    (∀ c ∈ acc, c ∈ lowerHexDigits) → ∀ c ∈ natToHexAux fuel n acc, c ∈ lowerHexDigits := by
  intro fuel
  induction fuel with
  | zero =>
    intro n acc h c hc
    exact h c hc
  | succ f ih =>
    intro n acc h c hc
    rw [natToHexAux] at hc
    by_cases h0 : n = 0
    · rw [if_pos h0] at hc
      exact h c hc
    · rw [if_neg h0] at hc
      refine ih (n / 16) (hexDigitChar (n % 16) :: acc) ?_ c hc
      intro x hx
      rcases List.mem_cons.mp hx with hx | hx
      · rw [hx]
        exact hexDigitChar_mem _
      · exact h x hx

theorem natToHexString_chars (n : Nat) : ∀ c ∈ (natToHexString n).data, c ∈ lowerHexDigits := by
  unfold natToHexString
  by_cases h0 : n = 0
  · rw [if_pos h0]
    intro c hc
    simp at hc
    rw [hc]
    decide
  · rw [if_neg h0]
    exact natToHexAux_chars n n [] (by intro c hc; simp at hc)

theorem hex_format (m : Nat) (hm : m < 16 ^ 64) :
    ("0x" ++ padStart (natToHexString m) 64 '0').data.length = 66
  ∧ ("0x" ++ padStart (natToHexString m) 64 '0').data.take 2 = ['0', 'x']
  ∧ ∀ c ∈ ("0x" ++ padStart (natToHexString m) 64 '0').data.drop 2, c ∈ lowerHexDigits := by
  have hdata : ("0x" ++ padStart (natToHexString m) 64 '0').data
      = '0' :: 'x' :: (List.replicate (64 - (natToHexString m).data.length) '0'
          ++ (natToHexString m).data) := by
    rw [String.data_append]
    rfl
  have hlen : (natToHexString m).data.length ≤ 64 := natToHexString_length_le m hm
  refine ⟨?_, ?_, ?_⟩
  · rw [hdata]
    simp only [List.length_cons, List.length_append, List.length_replicate]
    omega
  · rw [hdata]
    rfl
  · intro c hc
    rw [hdata] at hc
    simp only [List.drop_succ_cons, List.drop_zero, List.mem_append] at hc
    rcases hc with hc | hc
    · rw [List.eq_of_mem_replicate hc]
      decide
    · exact natToHexString_chars m c hc

/-- C2: the slot-hash calculator is a pure function whose result is always
`0x` followed by exactly 64 lowercase hex characters, and on the ERC-7201
worked example `"example.main"` it returns the published slot constant. -/
theorem erc7201_deterministic_format_and_example :
    (∀ id : String,
        calculateERC7201StorageLocation id = calculateERC7201StorageLocation id
      ∧ (calculateERC7201StorageLocation id).data.length = 66
      ∧ (calculateERC7201StorageLocation id).data.take 2 = ['0', 'x']
      ∧ ∀ c ∈ (calculateERC7201StorageLocation id).data.drop 2, c ∈ lowerHexDigits)
  ∧ calculateERC7201StorageLocation "example.main"
      = "0x183a6125c38840424c4a85fa12bab2ab606c4b6d0e7cc73c0c06ba5300eab500" := by
  constructor
  · intro id
    have hm : (bytesToNatBE (keccak256 (bufferFromHex (intToHexString
        ((bytesToNatBE (keccak256 (utf8Bytes id)) : Int) - 1)))) / 256) * 256 < 16 ^ 64 := by
      have h1 := bytesToNatBE_lt _ (keccak256_bytes_lt
        (bufferFromHex (intToHexString ((bytesToNatBE (keccak256 (utf8Bytes id)) : Int) - 1))))
      rw [keccak256_length] at h1
      have h256 : (256 : Nat) ^ 32 = 16 ^ 64 := by norm_num
      rw [h256] at h1
      exact lt_of_le_of_lt (Nat.div_mul_le_self _ _) h1
    have hfmt := hex_format _ hm
    exact ⟨rfl, hfmt.1, hfmt.2.1, hfmt.2.2⟩
  · rfl

theorem erc7201_deterministic_format_and_example_witness :
    (calculateERC7201StorageLocation "example.main").data.length = 66
  ∧ '1' ∈ lowerHexDigits :=
  ⟨(erc7201_deterministic_format_and_example.1 "example.main").2.1,
   (erc7201_deterministic_format_and_example.1 "example.main").2.2.2 '1'
     (by rw [erc7201_deterministic_format_and_example.2]; decide)⟩
